import Mathlib

/-!
Verification of the Dyld Shared Cache loader core
(`src/view/sharedcache/core/SharedCache.cpp` and headers).

The development shallowly embeds the functions the claims are about:
  * `applySlideInfo`  — `SharedCache::ParseAndApplySlideInfoForFile`
  * `loadImageWithInstallName` — `SharedCache::LoadImageWithInstallName`
  * `serializeState` / `deserializeState` — `SharedCache::Store` / `SharedCache::Load`
  * `readExportNode` — `SharedCache::ReadExportNode`
  * `fastGetBackingCacheCount` — `SharedCache::FastGetBackingCacheCount`
  * `splitRegionsOverSegments` — the region-splitting passes of
    `SharedCache::PerformInitialLoad`

Machine integers are modelled as `Nat` with explicit reductions `% 2^w`
where the C++ performs wrapping arithmetic.  A memory-mapped file is a
byte-addressed partial function; a read of a missing byte models
`MappingReadException`.
-/

set_option maxRecDepth 100000

set_option maxHeartbeats 2000000

namespace DSC

/-- 2^64, the modulus of `uint64_t` arithmetic. -/
def M64 : Nat := 18446744073709551616

/-- 2^32, the modulus of `uint32_t` arithmetic. -/
def M32 : Nat := 4294967296

/-- 2^16, the modulus of `uint16_t` arithmetic. -/
def M16 : Nat := 65536

/-- `UINT64_MAX`. -/
def U64MAX : Nat := 18446744073709551615

/-- Bit-field extraction: bits `[lo, lo+width)` of a 64-bit value, as in a
C `uint64_t` bit-field read. -/
def bitfield (v lo width : Nat) : Nat := (v >>> lo) % (2 ^ width)

/-- A memory-mapped file: byte-addressed partial map.  `none` at an offset
models a read beyond the mapped bounds (C++ `MappingReadException`). -/
def Mem : Type := Nat → Option Nat

/-- Little-endian read of `n` bytes at `off` (each byte taken mod 256).
Fails if any byte of the range is unmapped, as `MMappedFileAccessor::Read`
does. -/
def readLE (m : Mem) (off : Nat) : Nat → Option Nat
  | 0 => some 0
  | n + 1 => do
    let b ← m off
    let rest ← readLE m (off + 1) n
    pure (b % 256 + 256 * rest)

/-- `MMappedFileAccessor::ReadUShort`. -/
def readU16 (m : Mem) (off : Nat) : Option Nat := readLE m off 2

/-- `MMappedFileAccessor::ReadUInt32`. -/
def readU32 (m : Mem) (off : Nat) : Option Nat := readLE m off 4

/-- `MMappedFileAccessor::ReadULong`. -/
def readU64 (m : Mem) (off : Nat) : Option Nat := readLE m off 8

/-- `MMappedFileAccessor::WritePointer`: store a 64-bit little-endian word
in place. -/
def writeU64 (m : Mem) (loc v : Nat) : Mem := fun off =>
  if loc ≤ off ∧ off < loc + 8 then some ((v >>> (8 * (off - loc))) % 256) else m off

/-- All bytes of `[off, off+n)` are mapped. -/
def rangePresent (m : Mem) (off n : Nat) : Bool :=
  (List.range n).all fun i => (m (off + i)).isSome

/-- `count_trailing_zeros` (SharedCache.cpp line 53): 64 for the zero
input, otherwise the index of the least-significant set bit. -/
def ctz64 (v : Nat) : Nat :=
  if v = 0 then 64 else go v 64
where
  go : Nat → Nat → Nat
    | _, 0 => 0
    | v, f + 1 => if v % 2 = 1 then 0 else 1 + go (v / 2) f

/-! ## Cache data structures (SharedCache.h)

The C structs are `__attribute__((packed))`; field offsets used below are
the packed-layout offsets.
-/

/-- `dyld_cache_mapping_info` (packed, 32 bytes). -/
structure SlideMappingInfo where
  address : Nat
  size : Nat
  fileOffset : Nat
  maxProt : Nat
  initProt : Nat
  deriving Repr, DecidableEq

/-- `dyld_cache_mapping_and_slide_info` (packed, 56 bytes). -/
structure MappingAndSlideInfo where
  address : Nat
  size : Nat
  fileOffset : Nat
  slideInfoFileOffset : Nat
  slideInfoFileSize : Nat
  flags : Nat
  maxProt : Nat
  initProt : Nat
  deriving Repr, DecidableEq

/-- `dyld_cache_slide_info_v2` (packed, 40 bytes). -/
structure SlideInfoV2 where
  version : Nat
  page_size : Nat
  page_starts_offset : Nat
  page_starts_count : Nat
  page_extras_offset : Nat
  page_extras_count : Nat
  delta_mask : Nat
  value_add : Nat
  deriving Repr, DecidableEq

/-- `dyld_cache_slide_info_v3` (packed, 24 bytes). -/
structure SlideInfoV3 where
  version : Nat
  page_size : Nat
  page_starts_count : Nat
  pad_i_guess : Nat
  auth_value_add : Nat
  deriving Repr, DecidableEq

/-- `dyld_cache_slide_info5` (packed, 24 bytes). -/
structure SlideInfoV5 where
  version : Nat
  page_size : Nat
  page_starts_count : Nat
  pad : Nat
  value_add : Nat
  deriving Repr, DecidableEq

/-- The fields of the (packed, 520-byte) `dyld_cache_header` consumed by
`ParseAndApplySlideInfoForFile`.  Packed offsets: `mappingOffset` at 16,
`slideInfoOffsetUnused` at 56, `mappingWithSlideOffset` at 312,
`mappingWithSlideCount` at 316. -/
structure DyldCacheHeaderSlide where
  mappingOffset : Nat
  slideInfoOffsetUnused : Nat
  mappingWithSlideOffset : Nat
  mappingWithSlideCount : Nat
  deriving Repr, DecidableEq

/-- Read a `dyld_cache_mapping_info` struct. -/
def readMappingInfo (m : Mem) (off : Nat) : Option SlideMappingInfo := do
  let address ← readU64 m off
  let size ← readU64 m (off + 8)
  let fileOffset ← readU64 m (off + 16)
  let maxProt ← readU32 m (off + 24)
  let initProt ← readU32 m (off + 28)
  pure ⟨address, size, fileOffset, maxProt, initProt⟩

/-- Read a `dyld_cache_mapping_and_slide_info` struct. -/
def readMappingAndSlideInfo (m : Mem) (off : Nat) : Option MappingAndSlideInfo := do
  let address ← readU64 m off
  let size ← readU64 m (off + 8)
  let fileOffset ← readU64 m (off + 16)
  let slideInfoFileOffset ← readU64 m (off + 24)
  let slideInfoFileSize ← readU64 m (off + 32)
  let flags ← readU64 m (off + 40)
  let maxProt ← readU32 m (off + 48)
  let initProt ← readU32 m (off + 52)
  pure ⟨address, size, fileOffset, slideInfoFileOffset, slideInfoFileSize, flags, maxProt, initProt⟩

/-- Read a `dyld_cache_slide_info_v2` struct. -/
def readSlideInfoV2 (m : Mem) (off : Nat) : Option SlideInfoV2 := do
  let version ← readU32 m off
  let page_size ← readU32 m (off + 4)
  let page_starts_offset ← readU32 m (off + 8)
  let page_starts_count ← readU32 m (off + 12)
  let page_extras_offset ← readU32 m (off + 16)
  let page_extras_count ← readU32 m (off + 20)
  let delta_mask ← readU64 m (off + 24)
  let value_add ← readU64 m (off + 32)
  pure ⟨version, page_size, page_starts_offset, page_starts_count, page_extras_offset,
    page_extras_count, delta_mask, value_add⟩

/-- Read a `dyld_cache_slide_info_v3` struct. -/
def readSlideInfoV3 (m : Mem) (off : Nat) : Option SlideInfoV3 := do
  let version ← readU32 m off
  let page_size ← readU32 m (off + 4)
  let page_starts_count ← readU32 m (off + 8)
  let pad ← readU32 m (off + 12)
  let auth_value_add ← readU64 m (off + 16)
  pure ⟨version, page_size, page_starts_count, pad, auth_value_add⟩

/-- Read a `dyld_cache_slide_info5` struct. -/
def readSlideInfoV5 (m : Mem) (off : Nat) : Option SlideInfoV5 := do
  let version ← readU32 m off
  let page_size ← readU32 m (off + 4)
  let page_starts_count ← readU32 m (off + 8)
  let pad ← readU32 m (off + 12)
  let value_add ← readU64 m (off + 16)
  pure ⟨version, page_size, page_starts_count, pad, value_add⟩

/-- `ParseAndApplySlideInfoForFile` reads the whole 520-byte
`dyld_cache_header` at offset 0 (throwing if the file is shorter), then
consults the four fields modelled here. -/
def readHeaderForSlide (m : Mem) : Option DyldCacheHeaderSlide := do
  if rangePresent m 0 520 then
    let mappingOffset ← readU32 m 16
    let slideInfoOffsetUnused ← readU64 m 56
    let mappingWithSlideOffset ← readU32 m 312
    let mappingWithSlideCount ← readU32 m 316
    pure ⟨mappingOffset, slideInfoOffsetUnused, mappingWithSlideOffset, mappingWithSlideCount⟩
  else none

/-- `BackingCache` (SharedCache.h). -/
structure BackingCache where
  path : String
  isPrimary : Bool
  mappings : List SlideMappingInfo
  deriving Repr, DecidableEq

/-- The slide-info variant populated in `struct MappingInfo`; exactly one
of the three union-style members is filled before use, dispatched on
`slideInfoVersion`. -/
inductive SlideInfoRec where
  | v2 (s : SlideInfoV2)
  | v3 (s : SlideInfoV3)
  | v5 (s : SlideInfoV5)
  deriving Repr, DecidableEq

/-- `struct MappingInfo` (SharedCache.h), minus the file pointer. -/
structure MappingRec where
  mappingInfo : SlideMappingInfo
  slideInfo : SlideInfoRec
  deriving Repr, DecidableEq

/-- The base-address computation at the top of
`ParseAndApplySlideInfoForFile`: starting from `UINT64_MAX`, for each
backing cache scan its mappings and, at the first mapping whose address is
below the current base, take that address and `break` to the next cache. -/
def updateBase (base : Nat) (ms : List SlideMappingInfo) : Nat :=
  match ms.find? (fun mp => mp.address < base) with
  | some mp => mp.address
  | none => base

/-- Fold `updateBase` over all backing caches, starting at `UINT64_MAX`. -/
def computeBase (caches : List BackingCache) : Nat :=
  caches.foldl (fun b c => updateBase b c.mappings) U64MAX

/-- How a run of `ParseAndApplySlideInfoForFile` can fail to complete:
`abortCalled` models the `abort()` on an unrecognized legacy slide-info
version; `readFault` models a `MappingReadException` escaping the
function (the header / record reads are outside any try block). -/
inductive SlideErr where
  | abortCalled
  | readFault
  deriving Repr, DecidableEq

/-- Legacy record collection (`baseHeader.slideInfoOffsetUnused != 0`):
read the version; `abort()` unless it is 2 or 3; the mapping is the
cache's second mapping; read the matching slide-info struct. -/
def collectLegacy (m : Mem) (hdr : DyldCacheHeaderSlide) :
    Except SlideErr (List (Nat × MappingRec)) :=
  match readU32 m hdr.slideInfoOffsetUnused with
  | none => .error .readFault
  | some ver =>
    if ver ≠ 2 ∧ ver ≠ 3 then .error .abortCalled
    else
      match readMappingInfo m (hdr.mappingOffset + 32) with
      | none => .error .readFault
      | some mi =>
        if ver = 2 then
          match readSlideInfoV2 m hdr.slideInfoOffsetUnused with
          | none => .error .readFault
          | some s2 => .ok [(hdr.slideInfoOffsetUnused, ⟨mi, .v2 s2⟩)]
        else
          match readSlideInfoV3 m hdr.slideInfoOffsetUnused with
          | none => .error .readFault
          | some s3 => .ok [(hdr.slideInfoOffsetUnused, ⟨mi, .v3 s3⟩)]

/-- One iteration of the modern record loop
(`for i < mappingWithSlideCount`): entries with a zero
`slideInfoFileOffset` or a zero-size mapping are passed over; versions 2,
3 and 5 are collected (3 and 5 get the cache base written into their add
fields); any other version is logged and the record skipped
(`continue`). -/
def modernStep (m : Mem) (hdr : DyldCacheHeaderSlide) (base : Nat)
    (acc : List (Nat × MappingRec)) (i : Nat) :
    Except SlideErr (List (Nat × MappingRec)) :=
  match readMappingAndSlideInfo m (hdr.mappingWithSlideOffset + i * 56) with
  | none => .error .readFault
  | some e =>
    if e.slideInfoFileOffset ≠ 0 then
      if e.size = 0 then .ok acc
      else
        match readU32 m e.slideInfoFileOffset with
        | none => .error .readFault
        | some ver =>
          -- only address/size/fileOffset of map.mappingInfo are assigned
          let mi : SlideMappingInfo := ⟨e.address, e.size, e.fileOffset, 0, 0⟩
          if ver = 2 then
            match readSlideInfoV2 m e.slideInfoFileOffset with
            | none => .error .readFault
            | some s2 => .ok (acc ++ [(e.slideInfoFileOffset, ⟨mi, .v2 s2⟩)])
          else if ver = 3 then
            match readSlideInfoV3 m e.slideInfoFileOffset with
            | none => .error .readFault
            | some s3 =>
              .ok (acc ++ [(e.slideInfoFileOffset, ⟨mi, .v3 { s3 with auth_value_add := base }⟩)])
          else if ver = 5 then
            match readSlideInfoV5 m e.slideInfoFileOffset with
            | none => .error .readFault
            | some s5 =>
              .ok (acc ++ [(e.slideInfoFileOffset, ⟨mi, .v5 { s5 with value_add := base }⟩)])
          else .ok acc
    else .ok acc

/-- Modern record collection: iterate `mappingWithSlideCount` entries. -/
def collectModern (m : Mem) (hdr : DyldCacheHeaderSlide) (base : Nat) :
    Except SlideErr (List (Nat × MappingRec)) :=
  (List.range hdr.mappingWithSlideCount).foldlM (modernStep m hdr base) []

/-! ### The chain walks -/

/-- The v2 `rebaseChain` lambda.  `fuel` bounds the loop (the C++ `while`
can diverge on adversarial input; every claim below supplies ample fuel).
Each iteration reads a 64-bit word, derives the next delta and the
resolved value, advances `pageOffset` (a `uint32_t`) and emits the
rewrite; a read failure breaks the chain. -/
def rebaseChainGo (m : Mem) (deltaMask valueAdd deltaShift pageContent : Nat) :
    Nat → Nat → Nat → List (Nat × Nat)
  | 0, _, _ => []
  | f + 1, pageOffset, delta =>
    if delta = 0 then []
    else
      let loc := (pageContent + pageOffset) % M64
      match readU64 m loc with
      | none => []
      | some raw =>
        let delta2 := ((raw &&& deltaMask) >>> deltaShift) % M32
        let v0 := raw &&& (M64 - 1 - deltaMask)
        let value := if v0 ≠ 0 then (v0 + valueAdd) % M64 else v0
        (loc, value) :: rebaseChainGo m deltaMask valueAdd deltaShift pageContent f
          ((pageOffset + delta2) % M32) delta2

/-- `rebaseChain(slideInfo, pageContent, startOffset)`:
`deltaShift = count_trailing_zeros(delta_mask) - 2`, initial delta 1. -/
def rebaseChain (m : Mem) (fuel : Nat) (s : SlideInfoV2) (pageContent startOffset : Nat) :
    List (Nat × Nat) :=
  rebaseChainGo m s.delta_mask s.value_add (ctz64 s.delta_mask - 2) pageContent fuel startOffset 1

/-- The v2 extras do-while: walk chains at `(extra & 0x3FFF)*4` until an
entry carries `DYLD_CACHE_SLIDE_PAGE_ATTR_END (0x8000)`; a read failure
breaks. -/
def v2extras (m : Mem) (fuel : Nat) (s : SlideInfoV2) (extrasOffset page : Nat) :
    Nat → Nat → List (Nat × Nat)
  | 0, _ => []
  | fe + 1, j =>
    match readU16 m (extrasOffset + j * 2) with
    | none => []
    | some extra =>
      let chain := rebaseChain m fuel s page ((extra &&& 0x3FFF) * 4)
      if extra &&& 0x8000 ≠ 0 then chain
      else chain ++ v2extras m fuel s extrasOffset page fe (j + 1)

/-- The v2 page loop.  `cursor` advances by 2 only after a successful
`ReadUShort`; on failure the loop logs and continues (the cursor is then
stuck, so the remaining iterations contribute nothing, exactly as in the
source). `DYLD_CACHE_SLIDE_PAGE_ATTR_NO_REBASE (0x4000)` skips a page;
`DYLD_CACHE_SLIDE_PAGE_ATTR_EXTRA (0x8000)` dispatches to the extras
walk; otherwise a single chain starts at `(uint16_t)(start*4)`. -/
def v2pages (m : Mem) (fuel : Nat) (s : SlideInfoV2) (fileOff extrasOffset : Nat) :
    Nat → Nat → Nat → List (Nat × Nat)
  | 0, _, _ => []
  | r + 1, i, cursor =>
    match readU16 m cursor with
    | none => v2pages m fuel s fileOff extrasOffset r (i + 1) cursor
    | some start =>
      if start = 0x4000 then v2pages m fuel s fileOff extrasOffset r (i + 1) (cursor + 2)
      else
        let page := (fileOff + s.page_size * i) % M64
        let here :=
          if start &&& 0x8000 ≠ 0 then v2extras m fuel s extrasOffset page fuel (start &&& 0x3FFF)
          else rebaseChain m fuel s page ((start * 4) % M16)
        here ++ v2pages m fuel s fileOff extrasOffset r (i + 1) (cursor + 2)

/-- The v2 record walk: page starts at `off + page_starts_offset`, extras
at `off + page_extras_offset`. -/
def v2walk (m : Mem) (fuel : Nat) (s : SlideInfoV2) (fileOff off : Nat) : List (Nat × Nat) :=
  v2pages m fuel s fileOff (off + s.page_extras_offset) s.page_starts_count 0
    (off + s.page_starts_offset)

/-- The v3 chain do-while: advance `loc` by `delta` 8-byte strides, read a
`dyld_cache_slide_pointer3`; authenticated pointers resolve to
`offsetFromSharedCacheBase + auth_value_add`, plain ones to the 51-bit
unpacking `(top8 << 13) | bottom43`; emit, then continue while the new
delta (`plain.offsetToNextPointer`, bits [51,62)) is non-zero. -/
def v3chain (m : Mem) (authValueAdd : Nat) : Nat → Nat → Nat → List (Nat × Nat)
  | 0, _, _ => []
  | f + 1, loc, delta =>
    let loc2 := (loc + delta * 8) % M64
    match readU64 m loc2 with
    | none => []
    | some raw =>
      let delta2 := bitfield raw 51 11
      let value :=
        if bitfield raw 63 1 = 1 then (bitfield raw 0 32 + authValueAdd) % M64
        else
          (((bitfield raw 0 51 &&& 0x0007F80000000000) <<< 13) % M64) |||
            (bitfield raw 0 51 &&& 0x000007FFFFFFFFFF)
      (loc2, value) :: (if delta2 ≠ 0 then v3chain m authValueAdd f loc2 delta2 else [])

/-- The v3 page loop: page starts are `u16` at `off + 24`
(`sizeof(dyld_cache_slide_info_v3)`); `0xFFFF` skips; the initial
byte-based delta is divided by 8. -/
def v3pages (m : Mem) (fuel : Nat) (s : SlideInfoV3) (fileOff : Nat) :
    Nat → Nat → Nat → List (Nat × Nat)
  | 0, _, _ => []
  | r + 1, i, cursor =>
    match readU16 m cursor with
    | none => v3pages m fuel s fileOff r (i + 1) cursor
    | some d16 =>
      if d16 = 0xFFFF then v3pages m fuel s fileOff r (i + 1) (cursor + 2)
      else
        let loc := (fileOff + s.page_size * i) % M64
        v3chain m s.auth_value_add fuel loc (d16 / 8) ++
          v3pages m fuel s fileOff r (i + 1) (cursor + 2)

/-- The v3 record walk. -/
def v3walk (m : Mem) (fuel : Nat) (s : SlideInfoV3) (fileOff off : Nat) : List (Nat × Nat) :=
  v3pages m fuel s fileOff s.page_starts_count 0 (off + 24)

/-- The v5 chain do-while: both the auth and the regular
`dyld_cache_slide_pointer5` forms resolve to
`value_add + runtimeOffset` (bits [0,34)); the next stride is
`regular.next` (bits [52,63)). -/
def v5chain (m : Mem) (valueAdd : Nat) : Nat → Nat → Nat → List (Nat × Nat)
  | 0, _, _ => []
  | f + 1, loc, delta =>
    let loc2 := (loc + delta * 8) % M64
    match readU64 m loc2 with
    | none => []
    | some raw =>
      let delta2 := bitfield raw 52 11
      let value :=
        if bitfield raw 63 1 = 1 then (valueAdd + bitfield raw 0 34) % M64
        else (valueAdd + bitfield raw 0 34) % M64
      (loc2, value) :: (if delta2 ≠ 0 then v5chain m valueAdd f loc2 delta2 else [])

/-- The v5 page loop (page starts at `off + 24`, `0xFFFF` skips). -/
def v5pages (m : Mem) (fuel : Nat) (s : SlideInfoV5) (fileOff : Nat) :
    Nat → Nat → Nat → List (Nat × Nat)
  | 0, _, _ => []
  | r + 1, i, cursor =>
    match readU16 m cursor with
    | none => v5pages m fuel s fileOff r (i + 1) cursor
    | some d16 =>
      if d16 = 0xFFFF then v5pages m fuel s fileOff r (i + 1) (cursor + 2)
      else
        let loc := (fileOff + s.page_size * i) % M64
        v5chain m s.value_add fuel loc (d16 / 8) ++
          v5pages m fuel s fileOff r (i + 1) (cursor + 2)

/-- The v5 record walk. -/
def v5walk (m : Mem) (fuel : Nat) (s : SlideInfoV5) (fileOff off : Nat) : List (Nat × Nat) :=
  v5pages m fuel s fileOff s.page_starts_count 0 (off + 24)

/-- Dispatch a collected record to its version's walk. -/
def walkRecord (m : Mem) (fuel : Nat) (off : Nat) (mr : MappingRec) : List (Nat × Nat) :=
  match mr.slideInfo with
  | .v2 s => v2walk m fuel s mr.mappingInfo.fileOffset off
  | .v3 s => v3walk m fuel s mr.mappingInfo.fileOffset off
  | .v5 s => v5walk m fuel s mr.mappingInfo.fileOffset off

/-- Apply the collected `(loc, value)` rewrites through `WritePointer`. -/
def applyRewrites (m : Mem) (rws : List (Nat × Nat)) : Mem :=
  rws.foldl (fun mm lv => writeU64 mm lv.1 lv.2) m

/-- The mutable per-file state `ParseAndApplySlideInfoForFile` acts on:
the mapped bytes and the `slide_applied` flag of the
`MMappedFileAccessor`. -/
structure FileState where
  mem : Mem
  slideApplied : Bool

/-- `SharedCache::ParseAndApplySlideInfoForFile`.  Returns immediately if
`SlideInfoWasApplied()`; otherwise reads the header, collects slide-info
records (legacy or modern), and — unless no record was found — walks every
record and writes all rewrites back, finally setting the flag. -/
def applySlideInfo (caches : List BackingCache) (fuel : Nat) (f : FileState) :
    Except SlideErr FileState :=
  if f.slideApplied then .ok f
  else
    match readHeaderForSlide f.mem with
    | none => .error .readFault
    | some hdr =>
      match
        (if hdr.slideInfoOffsetUnused ≠ 0 then collectLegacy f.mem hdr
         else collectModern f.mem hdr (computeBase caches)) with
      | .error e => .error e
      | .ok mappings =>
        if mappings.isEmpty then .ok ⟨f.mem, true⟩
        else
          .ok ⟨applyRewrites f.mem
            (mappings.flatMap fun pr => walkRecord f.mem fuel pr.1 pr.2), true⟩

/-- The rewrite list a (first) run would produce, exposed for the
scenario claims. -/
def slideRewrites (caches : List BackingCache) (fuel : Nat) (m : Mem) :
    Except SlideErr (List (Nat × Nat)) :=
  match readHeaderForSlide m with
  | none => .error .readFault
  | some hdr =>
    match
      (if hdr.slideInfoOffsetUnused ≠ 0 then collectLegacy m hdr
       else collectModern m hdr (computeBase caches)) with
    | .error e => .error e
    | .ok mappings => .ok (mappings.flatMap fun pr => walkRecord m fuel pr.1 pr.2)

/-! ## Image loader / region materializer (`SharedCache::LoadImageWithInstallName`) -/

/-- `MemoryRegion` (SharedCache.h). -/
structure MemoryRegion where
  prettyName : String
  start : Nat
  size : Nat
  loaded : Bool
  rawViewOffsetIfLoaded : Nat
  headerInitialized : Bool
  flags : Nat
  deriving Repr, DecidableEq

/-- `CacheImage` (SharedCache.h). -/
structure CacheImage where
  installName : String
  headerLocation : Nat
  regions : List MemoryRegion
  deriving Repr, DecidableEq

/-- Substring occurrence over character lists (structural, so it
evaluates inside the kernel). -/
def containsSubList (needle : List Char) : List Char → Bool
  | [] => needle.isEmpty
  | c :: rest => needle.isPrefixOf (c :: rest) || containsSubList needle rest

/-- `region.prettyName.find("__LINKEDIT") != std::string::npos`. -/
def containsLinkedit (s : String) : Bool := containsSubList "__LINKEDIT".data s.data

/-- The host-view effects `LoadImageWithInstallName` performs per
materialized region: the raw parent view grows by the region's bytes
(`WriteBuffer` at its end), one `AddAutoSegment(rawViewEnd, size, …)` on
the parent view and one `AddUserSegment(start, size, rawViewEnd, …)` on
the DSC view. -/
structure HostView where
  rawEnd : Nat
  parentSegments : List (Nat × Nat)
  userSegments : List (Nat × Nat × Nat)
  deriving Repr, DecidableEq

/-- The portion of the controller `State` that
`LoadImageWithInstallName` observes and mutates.  The `headers` map is
keyed by text base; only the presence of an entry (and its install name,
used for the type-library lookup) matters to this operation, so the value
is the install name. -/
structure LoadState where
  images : List CacheImage
  headers : List (Nat × String)
  regionsMappedIntoMemory : List MemoryRegion
  viewState : Nat
  deriving Repr, DecidableEq

/-- The region loop of `LoadImageWithInstallName`: skip `__LINKEDIT`
regions unless allowed by `loader.dsc.allowLoadingLinkeditSegments`, skip
regions already `loaded`; otherwise append the bytes at the raw view's
end, add the two host-view segments, mark the region loaded at that
raw-view offset and record it.  (The call to
`ParseAndApplySlideInfoForFile` on the backing file is modelled
separately by `applySlideInfo` and does not touch this state.)
Returns (updated region list, host view, regions pushed to
`regionsMappedIntoMemory`, `regionsToLoad`). -/
def loadRegions (allow : Bool) (hv : HostView) :
    List MemoryRegion → List MemoryRegion × HostView × List MemoryRegion × List MemoryRegion
  | [] => ([], hv, [], [])
  | r :: rs =>
    if containsLinkedit r.prettyName ∧ ¬allow then
      let out := loadRegions allow hv rs
      (r :: out.1, out.2.1, out.2.2.1, out.2.2.2)
    else if r.loaded then
      let out := loadRegions allow hv rs
      (r :: out.1, out.2.1, out.2.2.1, out.2.2.2)
    else
      let rawViewEnd := hv.rawEnd
      let r2 := { r with loaded := true, rawViewOffsetIfLoaded := rawViewEnd }
      let hv2 : HostView :=
        { rawEnd := rawViewEnd + r.size
          parentSegments := hv.parentSegments ++ [(rawViewEnd, r.size)]
          userSegments := hv.userSegments ++ [(r.start, r.size, rawViewEnd)] }
      let out := loadRegions allow hv2 rs
      (r2 :: out.1, out.2.1, r2 :: out.2.2.1, r2 :: out.2.2.2)

/-- The target-image search loop of `LoadImageWithInstallName`: the
first image whose install name matches, if any. -/
def findImage : List CacheImage → String → Option CacheImage
  | [], _ => none
  | ci :: cis, nm => if ci.installName = nm then some ci else findImage cis nm

/-- A region the loop passes over without materializing: a `__LINKEDIT`
region while loading those is disallowed, or a region already loaded. -/
def regionSkipped (allow : Bool) (r : MemoryRegion) : Prop :=
  (containsLinkedit r.prettyName = true ∧ ¬allow = true) ∨ r.loaded = true

/-- Write back the mutated region list of the first image whose install
name matches (the C++ mutates that image in place through
`targetImage`). -/
def updateFirstImage : List CacheImage → String → List MemoryRegion → List CacheImage
  | [], _, _ => []
  | ci :: cis, nm, regs =>
    if ci.installName = nm then { ci with regions := regs } :: cis
    else ci :: updateFirstImage cis nm regs

/-- Outcome of the operation: a boolean return, or undefined behaviour —
`crash` marks the null-pointer dereference `targetImage->headerLocation`
reached when no image matches the requested install name. -/
inductive LoadOutcome where
  | ok (b : Bool)
  | crash
  deriving Repr, DecidableEq

/-- `SharedCache::LoadImageWithInstallName(installName, skipObjC)`.
`allow` is the `loader.dsc.allowLoadingLinkeditSegments` setting;
`headerParses` abstracts whether `LoadHeaderForAddress` at the image's
header VA yields a header (`return false` otherwise).  The ObjC
post-processing and analysis hooks mutate none of the modelled state. -/
def loadImageWithInstallName (allow headerParses : Bool) (st : LoadState) (hv : HostView)
    (nm : String) : LoadOutcome × LoadState × HostView :=
  match findImage st.images nm with
  | none => (.crash, st, hv)
  | some img =>
    match st.headers.lookup img.headerLocation with
    | none => (.ok false, st, hv)
    | some _ =>
      let st1 : LoadState := { st with viewState := 2 }
      let out := loadRegions allow hv img.regions
      let st2 : LoadState :=
        { st1 with
          images := updateFirstImage st1.images nm out.1
          regionsMappedIntoMemory := st1.regionsMappedIntoMemory ++ out.2.2.1 }
      if out.2.2.2.isEmpty then (.ok false, st2, out.2.1)
      else if ¬headerParses then (.ok false, st2, out.2.1)
      else (.ok true, st2, out.2.1)

/-! ## State persistence (`SharedCache::Store` / `SharedCache::Load`)

The rapidjson document is modelled as a typed record holding exactly the
keys `Store` writes; `Load` reads keys by name, so only the key set and
each key's payload matter.
-/

/-- `mach_header_64`. -/
structure MachHeader64 where
  magic : Nat
  cputype : Nat
  cpusubtype : Nat
  filetype : Nat
  ncmds : Nat
  sizeofcmds : Nat
  flags : Nat
  reserved : Nat
  deriving Repr, DecidableEq

/-- `symtab_command`. -/
structure SymtabCommand where
  cmd : Nat
  cmdsize : Nat
  symoff : Nat
  nsyms : Nat
  stroff : Nat
  strsize : Nat
  deriving Repr, DecidableEq

/-- `dysymtab_command`. -/
structure DysymtabCommand where
  cmd : Nat
  cmdsize : Nat
  ilocalsym : Nat
  nlocalsym : Nat
  iextdefsym : Nat
  nextdefsym : Nat
  iundefsym : Nat
  nundefsym : Nat
  tocoff : Nat
  ntoc : Nat
  modtaboff : Nat
  nmodtab : Nat
  extrefsymoff : Nat
  nextrefsyms : Nat
  indirectsymoff : Nat
  nindirectsyms : Nat
  extreloff : Nat
  nextrel : Nat
  locreloff : Nat
  nlocrel : Nat
  deriving Repr, DecidableEq

/-- `dyld_info_command`. -/
structure DyldInfoCommand where
  cmd : Nat
  cmdsize : Nat
  rebase_off : Nat
  rebase_size : Nat
  bind_off : Nat
  bind_size : Nat
  weak_bind_off : Nat
  weak_bind_size : Nat
  lazy_bind_off : Nat
  lazy_bind_size : Nat
  export_off : Nat
  export_size : Nat
  deriving Repr, DecidableEq

/-- `routines_command_64`. -/
structure RoutinesCommand64 where
  cmd : Nat
  cmdsize : Nat
  init_address : Nat
  init_module : Nat
  reserved1 : Nat
  reserved2 : Nat
  reserved3 : Nat
  reserved4 : Nat
  reserved5 : Nat
  reserved6 : Nat
  deriving Repr, DecidableEq

/-- `Load` never assigns `routines64` (its `MSL_SUBCLASS` line is
commented out), leaving the default-constructed / indeterminate value;
modelled as the zero record. -/
def routines64Unset : RoutinesCommand64 := ⟨0, 0, 0, 0, 0, 0, 0, 0, 0, 0⟩

/-- `linkedit_data_command` (also used for `function_starts_command`). -/
structure LinkeditDataCommand where
  cmd : Nat
  cmdsize : Nat
  dataoff : Nat
  datasize : Nat
  deriving Repr, DecidableEq

/-- `section_64` (names widened to strings). -/
structure Section64 where
  sectname : String
  segname : String
  addr : Nat
  size : Nat
  offset : Nat
  align : Nat
  reloff : Nat
  nreloc : Nat
  flags : Nat
  reserved1 : Nat
  reserved2 : Nat
  reserved3 : Nat
  deriving Repr, DecidableEq

/-- `segment_command_64` (name widened to a string). -/
structure SegmentCommand64 where
  cmd : Nat
  cmdsize : Nat
  segname : String
  vmaddr : Nat
  vmsize : Nat
  fileoff : Nat
  filesize : Nat
  maxprot : Nat
  initprot : Nat
  nsects : Nat
  flags : Nat
  deriving Repr, DecidableEq

/-- `build_version_command`. -/
structure BuildVersionCommand where
  cmd : Nat
  cmdsize : Nat
  platform : Nat
  minos : Nat
  sdk : Nat
  ntools : Nat
  deriving Repr, DecidableEq

/-- `build_tool_version`. -/
structure BuildToolVersion where
  tool : Nat
  version : Nat
  deriving Repr, DecidableEq

/-- `SharedCacheMachOHeader` (SharedCache.h). -/
structure SCHeader where
  textBase : Nat
  loadCommandOffset : Nat
  ident : MachHeader64
  identifierPrefixStr : String
  installName : String
  entryPoints : List (Nat × Bool)
  m_entryPoints : List Nat
  symtab : SymtabCommand
  dysymtab : DysymtabCommand
  dyldInfo : DyldInfoCommand
  routines64 : RoutinesCommand64
  functionStarts : LinkeditDataCommand
  moduleInitSections : List Section64
  exportTrie : LinkeditDataCommand
  chainedFixups : LinkeditDataCommand
  relocationBase : Nat
  segments : List SegmentCommand64
  linkeditSegment : SegmentCommand64
  sections : List Section64
  sectionNames : List String
  symbolStubSections : List Section64
  symbolPointerSections : List Section64
  dylibs : List String
  buildVersion : BuildVersionCommand
  buildToolVersions : List BuildToolVersion
  exportTriePath : String
  linkeditPresent : Bool
  dysymPresent : Bool
  dyldInfoPresent : Bool
  exportTriePresent : Bool
  chainedFixupsPresent : Bool
  routinesPresent : Bool
  functionStartsPresent : Bool
  relocatable : Bool
  deriving Repr, DecidableEq

/-- The controller `struct SharedCache::State` (SharedCache.cpp line 58).
The `std::unordered_map` / `std::map` members are modelled as their entry
lists in iteration order; symbol kinds (`BNSymbolType`) are the stored
integers. -/
structure SCState where
  exportInfos : List (Nat × List (Nat × Nat × String))
  symbolInfos : List (Nat × List (Nat × Nat × String))
  imageStarts : List (String × Nat)
  headers : List (Nat × SCHeader)
  images : List CacheImage
  regionsMappedIntoMemory : List MemoryRegion
  backingCaches : List BackingCache
  stubIslandRegions : List MemoryRegion
  dyldDataRegions : List MemoryRegion
  nonImageRegions : List MemoryRegion
  objcOptimizationDataRange : Option (Nat × Nat)
  baseFilePath : String
  cacheFormat : Nat
  viewState : Nat
  deriving Repr, DecidableEq

/-- Modelled from the spec: the metadata schema version constant
(`METADATA_VERSION`, defined outside `src/`); `Store` writes it under
`metadataVersion` and `Load` rejects a document carrying any other
value. Its concrete value is immaterial to the claims. -/
def METADATA_VERSION : Nat := 1

/-- The keys `MemoryRegion::Store` writes — `headerInitialized` is not
among them. -/
structure SerializedRegion where
  prettyName : String
  start : Nat
  size : Nat
  loaded : Bool
  rawViewOffsetIfLoaded : Nat
  flags : Nat
  deriving Repr, DecidableEq

/-- `MemoryRegion::Store`. -/
def serializeRegion (r : MemoryRegion) : SerializedRegion :=
  ⟨r.prettyName, r.start, r.size, r.loaded, r.rawViewOffsetIfLoaded, r.flags⟩

/-- `MemoryRegion::Load` on a default-constructed region:
`headerInitialized` keeps its member-initializer `false`. -/
def deserializeRegion (r : SerializedRegion) : MemoryRegion :=
  ⟨r.prettyName, r.start, r.size, r.loaded, r.rawViewOffsetIfLoaded, false, r.flags⟩

/-- The keys `CacheImage::Store` writes (regions nested as serialized
region documents). -/
structure SerializedImage where
  installName : String
  headerLocation : Nat
  regions : List SerializedRegion
  deriving Repr, DecidableEq

/-- `CacheImage::Store`. -/
def serializeImage (ci : CacheImage) : SerializedImage :=
  ⟨ci.installName, ci.headerLocation, ci.regions.map serializeRegion⟩

/-- `CacheImage::Load`. -/
def deserializeImage (si : SerializedImage) : CacheImage :=
  ⟨si.installName, si.headerLocation, si.regions.map deserializeRegion⟩

/-- The keys `SharedCacheMachOHeader::Store` writes: every field except
`routines64`, whose `MSS_SUBCLASS` line is commented out
(`routinesPresent` is still written). -/
structure SerializedHeader where
  textBase : Nat
  loadCommandOffset : Nat
  ident : MachHeader64
  identifierPrefixStr : String
  installName : String
  entryPoints : List (Nat × Bool)
  m_entryPoints : List Nat
  symtab : SymtabCommand
  dysymtab : DysymtabCommand
  dyldInfo : DyldInfoCommand
  functionStarts : LinkeditDataCommand
  moduleInitSections : List Section64
  exportTrie : LinkeditDataCommand
  chainedFixups : LinkeditDataCommand
  relocationBase : Nat
  segments : List SegmentCommand64
  linkeditSegment : SegmentCommand64
  sections : List Section64
  sectionNames : List String
  symbolStubSections : List Section64
  symbolPointerSections : List Section64
  dylibs : List String
  buildVersion : BuildVersionCommand
  buildToolVersions : List BuildToolVersion
  exportTriePath : String
  linkeditPresent : Bool
  dysymPresent : Bool
  dyldInfoPresent : Bool
  exportTriePresent : Bool
  chainedFixupsPresent : Bool
  routinesPresent : Bool
  functionStartsPresent : Bool
  relocatable : Bool
  deriving Repr, DecidableEq

/-- `SharedCacheMachOHeader::Store`.  The nested Mach-O command structs
are serialized field-by-field by `Serialize` overloads outside `src/`;
per the spec (§6) they encode integers as JSON numbers, i.e. the nested
payloads round-trip, so the typed document carries them verbatim. -/
def serializeHeader (h : SCHeader) : SerializedHeader :=
  ⟨h.textBase, h.loadCommandOffset, h.ident, h.identifierPrefixStr, h.installName,
    h.entryPoints, h.m_entryPoints, h.symtab, h.dysymtab, h.dyldInfo, h.functionStarts,
    h.moduleInitSections, h.exportTrie, h.chainedFixups, h.relocationBase, h.segments,
    h.linkeditSegment, h.sections, h.sectionNames, h.symbolStubSections,
    h.symbolPointerSections, h.dylibs, h.buildVersion, h.buildToolVersions,
    h.exportTriePath, h.linkeditPresent, h.dysymPresent, h.dyldInfoPresent,
    h.exportTriePresent, h.chainedFixupsPresent, h.routinesPresent,
    h.functionStartsPresent, h.relocatable⟩

/-- `SharedCacheMachOHeader::Load` on a default-constructed header:
`routines64` is never assigned (indeterminate, modelled as
`routines64Unset`) and the `MSL(routinesPresent)` line is commented out,
so `routinesPresent` keeps its member-initializer `false`. -/
def deserializeHeader (h : SerializedHeader) : SCHeader :=
  ⟨h.textBase, h.loadCommandOffset, h.ident, h.identifierPrefixStr, h.installName,
    h.entryPoints, h.m_entryPoints, h.symtab, h.dysymtab, h.dyldInfo, routines64Unset,
    h.functionStarts, h.moduleInitSections, h.exportTrie, h.chainedFixups,
    h.relocationBase, h.segments, h.linkeditSegment, h.sections, h.sectionNames,
    h.symbolStubSections, h.symbolPointerSections, h.dylibs, h.buildVersion,
    h.buildToolVersions, h.exportTriePath, h.linkeditPresent, h.dysymPresent,
    h.dyldInfoPresent, h.exportTriePresent, h.chainedFixupsPresent, false,
    h.functionStartsPresent, h.relocatable⟩

/-- The keys `SharedCache::Store` writes.  `objcOptimizationDataRange`
has no key: it is never serialized. -/
structure SerializedState where
  metadataVersion : Nat
  m_viewState : Nat
  m_cacheFormat : Nat
  m_imageStarts : List (String × Nat)
  m_baseFilePath : String
  headers : List SerializedHeader
  exportInfos : List (Nat × List (Nat × Nat × String))
  symbolInfos : List (Nat × List (Nat × Nat × String))
  backingCaches : List BackingCache
  stubIslands : List SerializedRegion
  images : List SerializedImage
  regionsMappedIntoMemory : List SerializedRegion
  dyldDataSections : List SerializedRegion
  nonImageRegions : List SerializedRegion
  deriving Repr, DecidableEq

/-- `SharedCache::Store` (SharedCache.cpp line 3461): the headers map is
written as the array of its values (keys dropped); region lists are
written through `MemoryRegion::Store`.  The vector-of-struct `Serialize`
overloads live outside `src/`; per the spec (§6) they write one nested
document per element, so the typed document carries element lists. -/
def serializeState (s : SCState) : SerializedState :=
  { metadataVersion := METADATA_VERSION
    m_viewState := s.viewState
    m_cacheFormat := s.cacheFormat
    m_imageStarts := s.imageStarts
    m_baseFilePath := s.baseFilePath
    headers := s.headers.map fun kv => serializeHeader kv.2
    exportInfos := s.exportInfos
    symbolInfos := s.symbolInfos
    backingCaches := s.backingCaches
    stubIslands := s.stubIslandRegions.map serializeRegion
    images := s.images.map serializeImage
    regionsMappedIntoMemory := s.regionsMappedIntoMemory.map serializeRegion
    dyldDataSections := s.dyldDataRegions.map serializeRegion
    nonImageRegions := s.nonImageRegions.map serializeRegion }

/-- `SharedCache::Load` (SharedCache.cpp line 3530): reject a metadata
version mismatch; rebuild the headers map keyed by each header's
`textBase`; `viewState` and `cacheFormat` are re-read as `uint8_t`;
`objcOptimizationDataRange` is never loaded and stays absent. -/
def deserializeState (d : SerializedState) : Option SCState :=
  if d.metadataVersion = METADATA_VERSION then
    some
      { viewState := d.m_viewState % 256
        cacheFormat := d.m_cacheFormat % 256
        headers := d.headers.map fun h => ((deserializeHeader h).textBase, deserializeHeader h)
        imageStarts := d.m_imageStarts
        baseFilePath := d.m_baseFilePath
        exportInfos := d.exportInfos
        symbolInfos := d.symbolInfos
        backingCaches := d.backingCaches
        images := d.images.map deserializeImage
        regionsMappedIntoMemory := d.regionsMappedIntoMemory.map deserializeRegion
        stubIslandRegions := d.stubIslands.map deserializeRegion
        dyldDataRegions := d.dyldDataSections.map deserializeRegion
        nonImageRegions := d.nonImageRegions.map deserializeRegion
        objcOptimizationDataRange := none }
  else none

/-! ## Export trie walker (`SharedCache::ReadExportNode`) -/

/-- `readLEB128(p, end, offset)` (SharedCache.cpp line 178): 7-bit
little-endian groups; returns `(uint64_t)-1` on running past `end` or
past 63 accumulated bits.  The loop runs at most 10 times (the `bit > 63`
check), so fuel 11 makes the model exact. -/
def readLEB128Go (p : List Nat) (e : Nat) : Nat → Nat → Nat → Nat → Nat × Nat
  | 0, offset, _, _ => (U64MAX, offset)
  | f + 1, offset, result, bit =>
    if offset ≥ e then (U64MAX, offset)
    else
      let byte := p.getD offset 0
      let slice := byte &&& 0x7f
      if bit > 63 then (U64MAX, offset)
      else
        let result2 := (result ||| (slice <<< bit)) % M64
        if byte &&& 0x80 ≠ 0 then readLEB128Go p e f (offset + 1) result2 (bit + 7)
        else (result2, offset + 1)

/-- `readLEB128` with its in-out cursor: returns (value, cursor after). -/
def readLEB128cpp (p : List Nat) (e cursor : Nat) : Nat × Nat :=
  readLEB128Go p e 11 cursor 0 0

/-- `readValidULEB128(buffer, cursor)`: reads against
`buffer.GetLength()` and throws (`none`) on the `-1` error value. -/
def readValidULEB128 (p : List Nat) (cursor : Nat) : Option (Nat × Nat) :=
  let r := readLEB128cpp p p.length cursor
  if r.1 = U64MAX then none else some r

/-- `BNSymbolType` as used by the walker. -/
inductive SymKind where
  | function
  | data
  deriving Repr, DecidableEq

/-- A symbol entered into `symbolList`. -/
structure ExportSym where
  kind : SymKind
  name : String
  addr : Nat
  deriving Repr, DecidableEq

/-- The section-scan of `ReadExportNode`: over all header sections, the
local `flags` (starting from indeterminate stack contents `flags0`) is
overwritten by the flags of each section with `addr < va` and
`addr + size > va`; the last such section in list order wins. -/
def sectionFlagsFold (sections : List Section64) (flags0 va : Nat) : Nat :=
  sections.foldl
    (fun fl s => if s.addr < va then (if (s.addr + s.size) % M64 > va then s.flags else fl) else fl)
    flags0

/-- Kind classification from the folded section flags:
`S_ATTR_PURE_INSTRUCTIONS (0x80000000)` or
`S_ATTR_SOME_INSTRUCTIONS (0x400)` gives a function symbol, else data. -/
def classifyBySection (sections : List Section64) (flags0 va : Nat) : SymKind :=
  let fl := sectionFlagsFold sections flags0 va
  if fl &&& 0x80000000 = 0x80000000 ∨ fl &&& 0x400 = 0x400 then .function else .data

/-- The child-label scan: `while (buffer[cursor] != 0 & cursor <= endGuard)
childText.push_back(buffer[cursor++]); cursor++;` (the final increment is
applied by the caller).  Fuel `endGuard + 1` always suffices, making the
model exact. -/
def childName (p : List Nat) (endGuard : Nat) : Nat → Nat → String → String × Nat
  | 0, cursor, acc => (acc, cursor)
  | f + 1, cursor, acc =>
    if p.getD cursor 0 ≠ 0 ∧ cursor ≤ endGuard then
      childName p endGuard f (cursor + 1) (acc.push (Char.ofNat (p.getD cursor 0)))
    else (acc, cursor)

/-- The terminal-record half of `ReadExportNode`: when `terminalSize` is
non-zero, read the flags; unless `EXPORT_SYMBOL_FLAGS_REEXPORT (0x08)`,
read `imageOffset`, compute `va = textBase + imageOffset`, and — only for
a non-empty accumulated name and non-zero `va` — emit the symbol whose
kind the section-flag scan determines.  The host-view function lookup
(`symbolType`) is computed but never used afterwards, as in the source.
Returns the emitted symbols and whether no `ReadException` was thrown. -/
def exportTerminalSyms (p : List Nat) (sections : List Section64) (hasFunc : Nat → Bool)
    (textBase flags0 : Nat) (currentText : String) (c1 terminalSize : Nat) :
    List ExportSym × Bool :=
  if terminalSize ≠ 0 then
    match readValidULEB128 p c1 with
    | none => ([], false)
    | some (flags, c2) =>
      if flags &&& 0x08 = 0 then
        match readValidULEB128 p c2 with
        | none => ([], false)
        | some (imageOffset, _) =>
          let va := (textBase + imageOffset) % M64
          -- host-view function lookup: computed but never used
          let _symbolType : SymKind := if hasFunc va then .function else .data
          if ¬currentText.isEmpty ∧ va ≠ 0 then
            ([⟨classifyBySection sections flags0 va, currentText, va⟩], true)
          else ([], true)
      else ([], true)
  else ([], true)

/-- One iteration of the child loop of `ReadExportNode`: read a
NUL-terminated label and a ULEB128 `next` offset (zero `next` throws),
then recurse (`recur`) on the extended name.  The state is
(symbols so far, cursor, no-exception-yet). -/
def exportChildrenStep (p : List Nat) (endGuard : Nat) (text : String)
    (recur : String → Nat → List ExportSym × Bool)
    (st : List ExportSym × Nat × Bool) (_i : Nat) : List ExportSym × Nat × Bool :=
  if ¬st.2.2 then st
  else
    let cn := childName p endGuard (endGuard + 1) st.2.1 ""
    let cursorA := cn.2 + 1
    if cursorA > endGuard then (st.1, cursorA, false)
    else
      match readValidULEB128 p cursorA with
      | none => (st.1, cursorA, false)
      | some (next, cursorB) =>
        if next = 0 then (st.1, cursorB, false)
        else
          let child := recur (text ++ cn.1) next
          (st.1 ++ child.1, cursorB, child.2)

/-- `SharedCache::ReadExportNode`.  Returns the symbols appended to
`symbolList` (in order) and whether the node completed without a
`ReadException` — on an exception the symbols appended so far are kept,
as `ParseExportTrie` catches and returns the partial vector.  The
recursion is bounded by `fuel` (the C++ recurses unboundedly and trusts
the trie); all claims supply ample fuel.  `hasFunc` is the host view's
`GetAnalysisFunctionsForAddress(va).size() != 0`; `flags0` models the
uninitialized local `flags`. -/
def readExportNode (p : List Nat) (sections : List Section64) (hasFunc : Nat → Bool)
    (textBase flags0 : Nat) : Nat → String → Nat → Nat → List ExportSym × Bool
  | 0, _, _, _ => ([], false)
  | fuel + 1, currentText, cursor, endGuard =>
    if cursor > endGuard then ([], false)
    else
      match readValidULEB128 p cursor with
      | none => ([], false)
      | some (terminalSize, c1) =>
        let childOffset := c1 + terminalSize
        let terminal :=
          exportTerminalSyms p sections hasFunc textBase flags0 currentText c1 terminalSize
        if terminal.2 = false then terminal
        else
          let syms := terminal.1
          let childCount := p.getD childOffset 0
          let cursor3 := childOffset + 1
          if cursor3 > endGuard then (syms, false)
          else
            let out := (List.range childCount).foldl
              (exportChildrenStep p endGuard currentText
                (fun t c => readExportNode p sections hasFunc textBase flags0 fuel t c endGuard))
              (syms, cursor3, true)
            (out.1, out.2.2)

/-! ## `SharedCache::FastGetBackingCacheCount` -/

/-- `SharedCacheFormat`. -/
inductive CacheFormat where
  | regular
  | large
  | split
  | ios16
  deriving Repr, DecidableEq

/-- `SharedCache::FastGetBackingCacheCount`, given the primary file's
bytes and whether a `.01` sibling file exists.  The header is read as
`min(ReadUInt32(16), sizeof(dyld_cache_header))` bytes over a
zero-initialized struct; format detection follows
`PerformInitialLoad`'s (packed `offsetof(dyld_cache_header,
subCacheArrayOffset)` is 392; `imagesCountOld` at 28, `cacheType` at 104,
`subCacheArrayCount` at 396).  `none` models a thrown read or the path
on which `cacheFormat` is left uninitialized. -/
def fastGetBackingCacheCount (m : Mem) (sibling01 : Bool) : Option Nat := do
  let headerSize ← readU32 m 16
  let n := min headerSize 520
  if rangePresent m 0 n then
    let mEff : Mem := fun off => if off < n then m off else some 0
    let imagesCountOld ← readU32 mEff 28
    let mappingOffset ← readU32 mEff 16
    let cacheType ← readU64 mEff 104
    let subCacheArrayCount ← readU32 mEff 396
    let fmt0 : Option CacheFormat := if imagesCountOld ≠ 0 then some .regular else none
    let fmt : Option CacheFormat :=
      if mappingOffset > 392 then
        if cacheType ≠ 2 then (if sibling01 then some .large else some .split)
        else some .ios16
      else fmt0
    match fmt with
    | none => none
    | some .regular => pure 1
    | some .large => pure (subCacheArrayCount + 1)
    | some .split => pure (subCacheArrayCount + 2)
    | some .ios16 => pure (subCacheArrayCount + 2)
  else none

/-! ## Region splitting after initial load (`PerformInitialLoad`,
SharedCache.cpp lines 840-959) -/

/-- End of a `[start, start+size)` range in `uint64_t` arithmetic. -/
def uend (start size : Nat) : Nat := (start + size) % M64

/-- Process one region against one segment: on overlap
(`segmentStart < regionEnd && segmentEnd > regionStart`) the region is
erased and replaced by the fragment before the segment and the fragment
after it (each kept only if non-degenerate); otherwise it is kept. -/
def splitRegionForSegment (segStart segEnd : Nat) (r : MemoryRegion) : List MemoryRegion :=
  let rStart := r.start
  let rEnd := uend r.start r.size
  if segStart < rEnd ∧ segEnd > rStart then
    (if rStart < segStart then [{ r with start := rStart, size := segStart - rStart }] else []) ++
      (if rEnd > segEnd then [{ r with start := segEnd, size := rEnd - segEnd }] else [])
  else [r]

/-- One segment's pass over the whole region list (the erase/insert
iterator loop visits every region once per segment). -/
def applySegmentSplit (regions : List MemoryRegion) (seg : SegmentCommand64) :
    List MemoryRegion :=
  regions.flatMap (splitRegionForSegment seg.vmaddr (uend seg.vmaddr seg.vmsize))

/-- Iterate the splitting over a list of segments. -/
def splitRegionsOverSegments (segs : List SegmentCommand64) (regions : List MemoryRegion) :
    List MemoryRegion :=
  segs.foldl applySegmentSplit regions

/-- All segments of all parsed headers, in iteration order. -/
def allSegments (headers : List (Nat × SCHeader)) : List SegmentCommand64 :=
  headers.flatMap fun kv => kv.2.segments

/-- One full splitting pass as `PerformInitialLoad` runs it over
`dyldDataRegions` and again over `nonImageRegions` (skipped when the
region list is empty). -/
def splitPass (headers : List (Nat × SCHeader)) (regions : List MemoryRegion) :
    List MemoryRegion :=
  if regions.isEmpty then regions else splitRegionsOverSegments (allSegments headers) regions

/-- Interval disjointness of a region and a segment. -/
def regionSegmentDisjoint (r : MemoryRegion) (s : SegmentCommand64) : Prop :=
  Set.Ico r.start (r.start + r.size) ∩ Set.Ico s.vmaddr (s.vmaddr + s.vmsize) = ∅

/-! ## Concrete inputs used by witnesses and counterexamples -/

/-- Byte `idx` of the little-endian encoding of `v`. -/
def leByte (v idx : Nat) : Nat := (v >>> (8 * idx)) % 256

/-- A file whose first 520 bytes are zero: a well-formed header with no
slide info anywhere. -/
def memZero520 : Mem := fun off => if off < 520 then some 0 else none

/-- A legacy-path file: `slideInfoOffsetUnused = 520` and the record at
520 carries version 5. -/
def c4mem : Mem := fun off =>
  if 56 ≤ off ∧ off < 64 then some (leByte 520 (off - 56))
  else if off < 520 then some 0
  else if 520 ≤ off ∧ off < 524 then some (leByte 5 (off - 520))
  else none

/-- A modern mapping-and-slide entry at offset 0 (`size = 1`,
`slideInfoFileOffset = 100`) whose slide-info record at 100 carries
version 4. -/
def c4wmem : Mem := fun off =>
  if 8 ≤ off ∧ off < 16 then some (leByte 1 (off - 8))
  else if 24 ≤ off ∧ off < 32 then some (leByte 100 (off - 24))
  else if off < 56 then some 0
  else if 100 ≤ off ∧ off < 104 then some (leByte 4 (off - 100))
  else none

/-- A modern-path file realizing the spec's v3 scenario: one
mapping-and-slide entry (at 520) with `fileOffset = 4096` and
`slideInfoFileOffset = 576`; a v3 record at 576 with `page_size = 0x1000`
and one page start of 0; the page at 4096 holds a plain pointer encoding
`0x180010000` with `offsetToNextPointer = 1`, followed by an
authenticated pointer with `offsetFromSharedCacheBase = 0x20000` and
`offsetToNextPointer = 0`. -/
def c5mem : Mem := fun off =>
  if 312 ≤ off ∧ off < 316 then some (leByte 520 (off - 312))
  else if 316 ≤ off ∧ off < 320 then some (leByte 1 (off - 316))
  else if off < 520 then some 0
  else if 520 ≤ off ∧ off < 528 then some (leByte 0x180000000 (off - 520))
  else if 528 ≤ off ∧ off < 536 then some (leByte 0x4000 (off - 528))
  else if 536 ≤ off ∧ off < 544 then some (leByte 4096 (off - 536))
  else if 544 ≤ off ∧ off < 552 then some (leByte 576 (off - 544))
  else if 552 ≤ off ∧ off < 576 then some 0
  else if 576 ≤ off ∧ off < 580 then some (leByte 3 (off - 576))
  else if 580 ≤ off ∧ off < 584 then some (leByte 0x1000 (off - 580))
  else if 584 ≤ off ∧ off < 588 then some (leByte 1 (off - 584))
  else if 588 ≤ off ∧ off < 602 then some 0
  else if 4096 ≤ off ∧ off < 4104 then some (leByte 0x8000180010000 (off - 4096))
  else if 4104 ≤ off ∧ off < 4112 then some (leByte 0x8000000000020000 (off - 4104))
  else none

/-- Backing caches whose lowest mapping address — the cache base — is
`0x180000000`. -/
def c5caches : List BackingCache :=
  [⟨"primary", true, [⟨0x180000000, 0x4000, 0, 0, 0⟩]⟩]

/-- A Split-format primary file: header size / `mappingOffset` 400
(beyond `offsetof(subCacheArrayOffset) = 392`), `cacheType = 1`,
`subCacheArrayCount = 2`. -/
def c8mem : Mem := fun off =>
  if 16 ≤ off ∧ off < 20 then some (leByte 400 (off - 16))
  else if 104 ≤ off ∧ off < 112 then some (leByte 1 (off - 104))
  else if 396 ≤ off ∧ off < 400 then some (leByte 2 (off - 396))
  else if off < 520 then some 0
  else none

/-- An unloaded `__TEXT` region of the demo image. -/
def demoRegion : MemoryRegion :=
  ⟨"libA.dylib::__TEXT", 0x180000000, 0x4000, false, 0, false, 5⟩

/-- A one-region demo image. -/
def demoImage : CacheImage := ⟨"/usr/lib/libA.dylib", 0x180000000, [demoRegion]⟩

/-- A loaded-cache state holding the demo image and its header entry. -/
def demoLoadState : LoadState :=
  ⟨[demoImage], [(0x180000000, "/usr/lib/libA.dylib")], [], 1⟩

/-- A host view whose raw view currently ends at `0x8000`. -/
def demoHostView : HostView := ⟨0x8000, [], []⟩

/-- Export-trie bytes: a root with one child labelled `_f` leading to a
terminal node with flags 0 and image offset 0x1234. -/
def c6buf : List Nat := [0x00, 0x01, 0x5F, 0x66, 0x00, 0x06, 0x03, 0x00, 0xB4, 0x24, 0x00]

/-- One section covering the exported address, with no instruction
attribute bits in its flags. -/
def c6sections : List Section64 :=
  [⟨"__const", "__TEXT", 0x180000000, 0x10000, 0, 3, 0, 0, 0, 0, 0, 0⟩]

/-- A minimal state carrying an ObjC optimization data range. -/
def c3state : SCState :=
  ⟨[], [], [], [], [], [], [], [], [], [], some (1, 2), "", 0, 0⟩

/-- Zeroed Mach-O command records for witness states. -/
def zeroMach : MachHeader64 := ⟨0, 0, 0, 0, 0, 0, 0, 0⟩

def zeroSymtab : SymtabCommand := ⟨0, 0, 0, 0, 0, 0⟩

def zeroDysymtab : DysymtabCommand :=
  ⟨0, 0, 0, 0, 0, 0, 0, 0, 0, 0, 0, 0, 0, 0, 0, 0, 0, 0, 0, 0⟩

def zeroDyldInfo : DyldInfoCommand := ⟨0, 0, 0, 0, 0, 0, 0, 0, 0, 0, 0, 0⟩

def zeroLinkedit : LinkeditDataCommand := ⟨0, 0, 0, 0⟩

def zeroSegment : SegmentCommand64 := ⟨0, 0, "", 0, 0, 0, 0, 0, 0, 0, 0⟩

def zeroBuildVersion : BuildVersionCommand := ⟨0, 0, 0, 0, 0, 0⟩

/-- A concrete parsed header keyed at text base 7 (no routines command
recorded, as `Load` produces). -/
def c3whdr : SCHeader :=
  ⟨7, 32, zeroMach, "libA.dylib", "/usr/lib/libA.dylib", [(1, true)], [1], zeroSymtab,
    zeroDysymtab, zeroDyldInfo, routines64Unset, zeroLinkedit, [], zeroLinkedit, zeroLinkedit,
    0, [zeroSegment], zeroSegment, [], [], [], [], ["/usr/lib/libSystem.dylib"],
    zeroBuildVersion, [], "/path", true, false, false, false, false, false, false, false⟩

/-- A loaded region whose header structures are not yet initialized. -/
def c3wregion : MemoryRegion := ⟨"r", 10, 20, true, 5, false, 1⟩

/-- A populated reachable-shaped state with no ObjC optimization range. -/
def c3wstate : SCState :=
  ⟨[(7, [(8, 0, "_f")])], [(7, [(9, 1, "_g")])], [("/usr/lib/libA.dylib", 7)], [(7, c3whdr)],
    [⟨"/usr/lib/libA.dylib", 7, [c3wregion]⟩], [c3wregion], [⟨"p", true, [⟨1, 2, 3, 4, 5⟩]⟩],
    [c3wregion], [], [c3wregion], none, "/p", 1, 2⟩

/-- A text segment spanning `[100, 200)`. -/
def c7seg : SegmentCommand64 := ⟨0, 0, "__TEXT", 100, 100, 0, 0, 0, 0, 0, 0⟩

/-- A parsed-header map with that single segment. -/
def c7headers : List (Nat × SCHeader) := [(7, { c3whdr with segments := [c7seg] })]

/-- A raw cache-mapping region `[50, 300)` overlapping the segment. -/
def c7region : MemoryRegion := ⟨"data", 50, 250, false, 0, false, 1⟩

/-! # Theorems -/

/-- Claim C1: slide rewriting is idempotent per backing file.  Any
completed invocation of `ParseAndApplySlideInfoForFile` leaves
`slide_applied = true`, and a second invocation (any fuel) returns
immediately with the file — bytes and flag — unchanged. -/
theorem slide_rewriting_idempotent (caches : List BackingCache) (fuel fuel' : Nat)
    (f f' : FileState) (h : applySlideInfo caches fuel f = .ok f') :
    f'.slideApplied = true ∧ applySlideInfo caches fuel' f' = .ok f' := by
  have h1 : f'.slideApplied = true := by
    unfold applySlideInfo at h
    by_cases hs : f.slideApplied = true
    · rw [if_pos hs] at h
      injection h with h2
      rw [← h2]; exact hs
    · rw [if_neg hs] at h
      split at h
      · exact absurd h (by simp)
      · split at h
        · exact absurd h (by simp)
        · split at h
          · injection h with h2; rw [← h2]
          · injection h with h2; rw [← h2]
  refine ⟨h1, ?_⟩
  unfold applySlideInfo
  rw [if_pos h1]

/-- Witness for C1 at a concrete file (520 zero header bytes, no slide
info): the first invocation completes, after which the flag is set and a
re-invocation is the identity. -/
theorem slide_rewriting_idempotent_witness :
    (⟨memZero520, true⟩ : FileState).slideApplied = true ∧
      applySlideInfo [] 1 ⟨memZero520, true⟩ = .ok ⟨memZero520, true⟩ :=
  slide_rewriting_idempotent [] 1 1 ⟨memZero520, false⟩ ⟨memZero520, true⟩ (by rfl)

/-- Claim C4, counterexample: on the legacy `slide_info_offset_unused`
path a record with version 5 — outside {2, 3} — does not get logged and
skipped; the function calls `abort()`, terminating the process. -/
theorem legacy_unknown_version_aborts :
    applySlideInfo [] 100 ⟨c4mem, false⟩ = .error .abortCalled := by
  rfl

/-- Claim C4, amended: only on the modern `mapping_and_slide` path is a
record with a version outside {2, 3, 5} logged and skipped (the loop step
leaves the accumulator unchanged and succeeds, so subsequent records are
processed and the operation continues); the legacy path instead aborts
for versions outside {2, 3}. -/
theorem modern_unknown_version_skipped (m : Mem) (hdr : DyldCacheHeaderSlide) (base : Nat)
    (acc : List (Nat × MappingRec)) (i : Nat) (e : MappingAndSlideInfo) (ver : Nat)
    (hread : readMappingAndSlideInfo m (hdr.mappingWithSlideOffset + i * 56) = some e)
    (hoff : e.slideInfoFileOffset ≠ 0) (hsz : e.size ≠ 0)
    (hver : readU32 m e.slideInfoFileOffset = some ver)
    (hv2 : ver ≠ 2) (hv3 : ver ≠ 3) (hv5 : ver ≠ 5) :
    modernStep m hdr base acc i = .ok acc := by
  unfold modernStep
  rw [hread]
  simp [hoff, hsz, hver, hv2, hv3, hv5]

/-- Witness for the amended C4: a concrete version-4 record is skipped
with the accumulator unchanged. -/
theorem modern_unknown_version_skipped_witness :
    modernStep c4wmem ⟨0, 0, 0, 1⟩ 0 [] 0 = .ok [] :=
  modern_unknown_version_skipped c4wmem ⟨0, 0, 0, 1⟩ 0 [] 0 ⟨0, 1, 0, 100, 0, 0, 0, 0⟩ 4
    (by decide) (by decide) (by decide) (by decide) (by decide) (by decide) (by decide)

/-- Claim C5: on the spec's v3 scenario the rewriter emits exactly
`(page+0, 0x180010000)` (plain 51-bit unpacking) and
`(page+8, 0x180020000)` (`0x20000 + 0x180000000`), and a second
invocation — the flag now set — makes no further writes. -/
theorem v3_slide_chain_scenario :
    slideRewrites c5caches 100 c5mem = .ok [(4096, 0x180010000), (4104, 0x180020000)] ∧
      ∀ mm : Mem, applySlideInfo c5caches 100 ⟨mm, true⟩ = .ok ⟨mm, true⟩ := by
  refine ⟨by rfl, fun mm => ?_⟩
  unfold applySlideInfo
  rw [if_pos rfl]

/-- Claim C8: format detection alone determines the backing-cache count —
for a Split-format cache (`cacheType ≠ 2`, no `.01` sibling, header long
enough) reporting `subCacheArrayCount = 2` the function returns
`2 + 2 = 4`, without building any `State`. -/
theorem fast_backing_cache_count_split (m : Mem) (hs ico mo ct : Nat)
    (h16 : readU32 m 16 = some hs)
    (hpres : rangePresent m 0 (min hs 520) = true)
    (h28 : readU32 (fun off => if off < min hs 520 then m off else some 0) 28 = some ico)
    (hmo : readU32 (fun off => if off < min hs 520 then m off else some 0) 16 = some mo)
    (hlong : 392 < mo)
    (hct : readU64 (fun off => if off < min hs 520 then m off else some 0) 104 = some ct)
    (hct2 : ct ≠ 2)
    (hsub : readU32 (fun off => if off < min hs 520 then m off else some 0) 396 = some 2) :
    fastGetBackingCacheCount m false = some 4 := by
  unfold fastGetBackingCacheCount
  rw [h16]
  simp only [Option.bind_eq_bind', Option.some_bind']
  rw [if_pos hpres]
  rw [h28]
  simp only [Option.bind_eq_bind', Option.some_bind']
  rw [hmo]
  simp only [Option.bind_eq_bind', Option.some_bind']
  rw [hct]
  simp only [Option.bind_eq_bind', Option.some_bind']
  rw [hsub]
  simp only [Option.bind_eq_bind', Option.some_bind']
  rw [if_pos hlong, if_pos hct2]
  rfl

/-- Witness for C8: a concrete Split-format header returns 4. -/
theorem fast_backing_cache_count_split_witness :
    rangePresent c8mem 0 (min 400 520) = true ∧
      fastGetBackingCacheCount c8mem false = some 4 := by
  refine ⟨by decide, ?_⟩
  exact fast_backing_cache_count_split c8mem 400 0 400 1 (by decide) (by decide) (by decide)
    (by decide) (by decide) (by decide) (by decide) (by decide)

/-- Claim C9 evaluation: with an install name matching no image, the code
dereferences the null `targetImage` pointer (`targetImage->headerLocation`)
instead of returning `false`. -/
theorem load_image_missing_name_crashes :
    loadImageWithInstallName true true demoLoadState demoHostView "/usr/lib/libB.dylib" =
      (.crash, demoLoadState, demoHostView) := by
  rfl

/-- A string with `isEmpty = false` is not the empty string. -/
theorem ne_empty_of_isEmpty_false (s : String) (h : s.isEmpty = false) : s ≠ "" := by
  intro hh
  rw [hh] at h
  exact absurd h (by decide)

/-- Every symbol `exportTerminalSyms` emits carries the section-scan
kind, the accumulated name (known non-empty), and a non-zero address. -/
theorem exportTerminalSyms_mem (p : List Nat) (sections : List Section64)
    (hasFunc : Nat → Bool) (textBase flags0 : Nat) (currentText : String)
    (c1 terminalSize : Nat) (sym : ExportSym)
    (h : sym ∈ (exportTerminalSyms p sections hasFunc textBase flags0 currentText c1
      terminalSize).1) :
    sym.kind = classifyBySection sections flags0 sym.addr ∧ sym.name = currentText ∧
      currentText.isEmpty = false ∧ sym.addr ≠ 0 := by
  unfold exportTerminalSyms at h
  split at h
  · split at h
    · simp at h
    · dsimp only at h
      split at h
      · split at h
        · simp at h
        · split at h
          · rename_i hguard
            simp only [List.mem_singleton] at h
            subst h
            refine ⟨rfl, rfl, ?_, hguard.2⟩
            rcases Bool.eq_false_or_eq_true currentText.isEmpty with he | he
            · exact absurd he hguard.1
            · exact he
          · simp at h
      · simp at h
  · simp at h

/-- `exportChildrenStep` preserves any per-symbol predicate that the
recursive call's outputs satisfy. -/
theorem exportChildrenStep_pres (p : List Nat) (endGuard : Nat) (text : String)
    (recur : String → Nat → List ExportSym × Bool) (good : ExportSym → Prop)
    (hrec : ∀ t c, ∀ sym ∈ (recur t c).1, good sym)
    (st : List ExportSym × Nat × Bool) (i : Nat)
    (hst : ∀ sym ∈ st.1, good sym) :
    ∀ sym ∈ (exportChildrenStep p endGuard text recur st i).1, good sym := by
  intro sym h
  unfold exportChildrenStep at h
  split at h
  · exact hst sym h
  · dsimp only at h
    split at h
    · exact hst sym h
    · split at h
      · exact hst sym h
      · split at h
        · exact hst sym h
        · rcases List.mem_append.mp h with h1 | h2
          · exact hst sym h1
          · exact hrec _ _ sym h2

/-- The child loop preserves any such predicate. -/
theorem exportChildren_foldl_pres (p : List Nat) (endGuard : Nat) (text : String)
    (recur : String → Nat → List ExportSym × Bool) (good : ExportSym → Prop)
    (hrec : ∀ t c, ∀ sym ∈ (recur t c).1, good sym)
    (l : List Nat) (init : List ExportSym × Nat × Bool)
    (hinit : ∀ sym ∈ init.1, good sym) :
    ∀ sym ∈ (l.foldl (exportChildrenStep p endGuard text recur) init).1, good sym :=
  List.foldlRecOn l (exportChildrenStep p endGuard text recur) init hinit
    (fun b hb a _ => exportChildrenStep_pres p endGuard text recur good hrec b a hb)

/-- Claim C10: every symbol the export-trie walk emits has a non-empty
name and a non-zero virtual address — terminals at an empty accumulated
label or at `text_base + image_offset = 0` are silently dropped. -/
theorem export_symbols_nonempty_nonzero (p : List Nat) (sections : List Section64)
    (hasFunc : Nat → Bool) (textBase flags0 fuel : Nat) :
    ∀ (text : String) (cursor endGuard : Nat),
      ∀ sym ∈ (readExportNode p sections hasFunc textBase flags0 fuel text cursor endGuard).1,
        sym.name ≠ "" ∧ sym.addr ≠ 0 := by
  induction fuel with
  | zero =>
    intro text cursor endGuard sym h
    simp [readExportNode] at h
  | succ fuel ih =>
    intro text cursor endGuard sym h
    simp only [readExportNode] at h
    split at h
    · simp at h
    · split at h
      · simp at h
      · split at h
        · obtain ⟨_, hn, he, ha⟩ := exportTerminalSyms_mem _ _ _ _ _ _ _ _ _ h
          exact ⟨by rw [hn]; exact ne_empty_of_isEmpty_false text he, ha⟩
        · split at h
          · obtain ⟨_, hn, he, ha⟩ := exportTerminalSyms_mem _ _ _ _ _ _ _ _ _ h
            exact ⟨by rw [hn]; exact ne_empty_of_isEmpty_false text he, ha⟩
          · refine exportChildren_foldl_pres p endGuard text _
              (fun s => s.name ≠ "" ∧ s.addr ≠ 0) ?_ _ _ ?_ sym h
            · intro t c s hs
              exact ih t c endGuard s hs
            · intro s hs
              obtain ⟨_, hn, he, ha⟩ := exportTerminalSyms_mem _ _ _ _ _ _ _ _ _ hs
              exact ⟨by rw [hn]; exact ne_empty_of_isEmpty_false text he, ha⟩

/-- Witness for C10: a concrete emitted symbol of the demo trie has a
non-empty name and non-zero address. -/
theorem export_symbols_nonempty_nonzero_witness :
    (⟨SymKind.data, "_f", 0x180001234⟩ : ExportSym).name ≠ "" ∧
      (⟨SymKind.data, "_f", 0x180001234⟩ : ExportSym).addr ≠ 0 :=
  export_symbols_nonempty_nonzero c6buf c6sections (fun _ => true) 0x180000000 0 10 "" 0 11
    ⟨SymKind.data, "_f", 0x180001234⟩ (by decide)

/-- Claim C6, counterexample: on the demo trie the host view has a
function at every address (`hasFunc ≡ true`), yet the emitted kind is
`Data` — the section attributes (no instruction bits) decide it; the
host-view check is computed into a dead local and ignored. -/
theorem export_kind_ignores_host_function_cx :
    ((fun _ : Nat => true) 0x180001234 = true) ∧
      readExportNode c6buf c6sections (fun _ => true) 0x180000000 0 10 "" 0 11 =
        ([⟨SymKind.data, "_f", 0x180001234⟩], true) := by
  exact ⟨rfl, by decide⟩

/-- Claim C6, amended: the kind of every emitted export symbol is
determined by the section-flag scan alone (the flags of the last section
with `addr < va` and `addr + size > va`, over the initial `flags0`,
tested against `S_ATTR_PURE_INSTRUCTIONS | S_ATTR_SOME_INSTRUCTIONS`);
the host-view function lookup does not influence it. -/
theorem export_symbol_kind_section_only (p : List Nat) (sections : List Section64)
    (hasFunc : Nat → Bool) (textBase flags0 fuel : Nat) :
    ∀ (text : String) (cursor endGuard : Nat),
      ∀ sym ∈ (readExportNode p sections hasFunc textBase flags0 fuel text cursor endGuard).1,
        sym.kind = classifyBySection sections flags0 sym.addr := by
  induction fuel with
  | zero =>
    intro text cursor endGuard sym h
    simp [readExportNode] at h
  | succ fuel ih =>
    intro text cursor endGuard sym h
    simp only [readExportNode] at h
    split at h
    · simp at h
    · split at h
      · simp at h
      · split at h
        · exact (exportTerminalSyms_mem _ _ _ _ _ _ _ _ _ h).1
        · split at h
          · exact (exportTerminalSyms_mem _ _ _ _ _ _ _ _ _ h).1
          · refine exportChildren_foldl_pres p endGuard text _
              (fun s => s.kind = classifyBySection sections flags0 s.addr) ?_ _ _ ?_ sym h
            · intro t c s hs
              exact ih t c endGuard s hs
            · intro s hs
              exact (exportTerminalSyms_mem _ _ _ _ _ _ _ _ _ hs).1

/-- Witness for the amended C6: the demo symbol's kind equals the
section-scan classification at its address. -/
theorem export_symbol_kind_section_only_witness :
    (⟨SymKind.data, "_f", 0x180001234⟩ : ExportSym).kind =
      classifyBySection c6sections 0 (⟨SymKind.data, "_f", 0x180001234⟩ : ExportSym).addr :=
  export_symbol_kind_section_only c6buf c6sections (fun _ => true) 0x180000000 0 10 "" 0 11
    ⟨SymKind.data, "_f", 0x180001234⟩ (by decide)

/-- A serialized-then-deserialized region only forgets
`headerInitialized`. -/
theorem region_roundtrip (r : MemoryRegion) (h : r.headerInitialized = false) :
    deserializeRegion (serializeRegion r) = r := by
  have e : deserializeRegion (serializeRegion r) = { r with headerInitialized := false } := rfl
  rw [e, ← h]

/-- Region lists round-trip when no region was header-initialized. -/
theorem regionList_roundtrip (l : List MemoryRegion)
    (h : ∀ r ∈ l, r.headerInitialized = false) :
    (l.map serializeRegion).map deserializeRegion = l := by
  rw [List.map_map]
  conv_rhs => rw [← List.map_id l]
  exact List.map_congr_left fun r hr => by simpa using region_roundtrip r (h r hr)

/-- Cache images round-trip under the same condition on their regions. -/
theorem image_roundtrip (ci : CacheImage)
    (h : ∀ r ∈ ci.regions, r.headerInitialized = false) :
    deserializeImage (serializeImage ci) = ci := by
  have e : deserializeImage (serializeImage ci) =
      { ci with regions := (ci.regions.map serializeRegion).map deserializeRegion } := rfl
  rw [e, regionList_roundtrip ci.regions h]

/-- Image lists round-trip. -/
theorem imageList_roundtrip (l : List CacheImage)
    (h : ∀ ci ∈ l, ∀ r ∈ ci.regions, r.headerInitialized = false) :
    (l.map serializeImage).map deserializeImage = l := by
  rw [List.map_map]
  conv_rhs => rw [← List.map_id l]
  exact List.map_congr_left fun ci hci => by simpa using image_roundtrip ci (h ci hci)

/-- A header round-trips iff its routines command was already at the
values `Load` forces. -/
theorem header_roundtrip (h : SCHeader) (h64 : h.routines64 = routines64Unset)
    (hrp : h.routinesPresent = false) : deserializeHeader (serializeHeader h) = h := by
  have e : deserializeHeader (serializeHeader h) =
      { h with routines64 := routines64Unset, routinesPresent := false } := rfl
  rw [e, ← h64, ← hrp]

/-- The headers map round-trips when each entry is keyed by its header's
text base and carries no routines data. -/
theorem headerList_roundtrip (l : List (Nat × SCHeader))
    (h : ∀ kv ∈ l, kv.1 = kv.2.textBase ∧ kv.2.routines64 = routines64Unset ∧
      kv.2.routinesPresent = false) :
    (l.map fun kv => serializeHeader kv.2).map
      (fun sh => ((deserializeHeader sh).textBase, deserializeHeader sh)) = l := by
  rw [List.map_map]
  conv_rhs => rw [← List.map_id l]
  refine List.map_congr_left fun kv hkv => ?_
  obtain ⟨h1, h2, h3⟩ := h kv hkv
  show ((deserializeHeader (serializeHeader kv.2)).textBase,
    deserializeHeader (serializeHeader kv.2)) = kv
  rw [header_roundtrip kv.2 h2 h3, ← h1]

/-- Claim C3, counterexample: a state whose `objcOptimizationDataRange`
is present does not survive the round trip — `Store` never writes it and
`Load` never restores it. -/
theorem state_roundtrip_drops_objc_range :
    deserializeState (serializeState c3state) ≠ some c3state := by
  decide

/-- Claim C3, amended: `deserialize(serialize(state)) = state` for every
reachable state whose `objcOptimizationDataRange` is absent, whose
headers are keyed by their text base with no routines-command data
(`routines64` / `routinesPresent` are not restored by `Load`), and whose
memory regions all have `headerInitialized = false` (that flag is not
persisted); `viewState` and `cacheFormat` fit in the `uint8_t` they are
re-read as. -/
theorem state_roundtrip (s : SCState)
    (hobjc : s.objcOptimizationDataRange = none)
    (hvs : s.viewState < 256) (hcf : s.cacheFormat < 256)
    (hhdr : ∀ kv ∈ s.headers, kv.1 = kv.2.textBase ∧ kv.2.routines64 = routines64Unset ∧
      kv.2.routinesPresent = false)
    (hmapped : ∀ r ∈ s.regionsMappedIntoMemory, r.headerInitialized = false)
    (hstub : ∀ r ∈ s.stubIslandRegions, r.headerInitialized = false)
    (hdyld : ∀ r ∈ s.dyldDataRegions, r.headerInitialized = false)
    (hnon : ∀ r ∈ s.nonImageRegions, r.headerInitialized = false)
    (himg : ∀ ci ∈ s.images, ∀ r ∈ ci.regions, r.headerInitialized = false) :
    deserializeState (serializeState s) = some s := by
  have e1 := headerList_roundtrip s.headers hhdr
  have e2 := regionList_roundtrip s.regionsMappedIntoMemory hmapped
  have e3 := regionList_roundtrip s.stubIslandRegions hstub
  have e4 := regionList_roundtrip s.dyldDataRegions hdyld
  have e5 := regionList_roundtrip s.nonImageRegions hnon
  have e6 := imageList_roundtrip s.images himg
  unfold deserializeState serializeState
  rw [if_pos rfl]
  congr 1
  obtain ⟨ei, si, is, hd, im, rm, bc, st, dd, ni, oo, bf, cf, vs⟩ := s
  dsimp only at e1 e2 e3 e4 e5 e6 hobjc ⊢
  subst hobjc
  simp [SCState.mk.injEq, e1, e2, e3, e4, e5, e6, Nat.mod_eq_of_lt hvs, Nat.mod_eq_of_lt hcf]

/-- Witness for the amended C3: a populated state round-trips exactly. -/
theorem state_roundtrip_witness :
    deserializeState (serializeState c3wstate) = some c3wstate :=
  state_roundtrip c3wstate (by decide) (by decide) (by decide) (by decide) (by decide)
    (by decide) (by decide) (by decide) (by decide)

/-- Every region in the list the region loop leaves behind is either
skipped-by-policy or loaded. -/
theorem loadRegions_out_skipped (allow : Bool) (rs : List MemoryRegion) :
    ∀ (hv : HostView), ∀ r ∈ (loadRegions allow hv rs).1, regionSkipped allow r := by
  induction rs with
  | nil =>
    intro hv r h
    simp [loadRegions] at h
  | cons r0 rs ih =>
    intro hv r h
    simp only [loadRegions] at h
    split at h
    · rename_i hcond
      rcases List.mem_cons.mp h with rfl | h2
      · exact Or.inl hcond
      · exact ih hv r h2
    · split at h
      · rename_i hl
        rcases List.mem_cons.mp h with rfl | h2
        · exact Or.inr hl
        · exact ih hv r h2
      · rcases List.mem_cons.mp h with rfl | h2
        · exact Or.inr rfl
        · exact ih _ r h2

/-- The region loop is a no-op on a list of skipped-or-loaded regions:
no bytes are written, no segments added, nothing recorded. -/
theorem loadRegions_skipped_noop (allow : Bool) (rs : List MemoryRegion)
    (h : ∀ r ∈ rs, regionSkipped allow r) :
    ∀ hv : HostView, loadRegions allow hv rs = (rs, hv, [], []) := by
  induction rs with
  | nil => intro hv; rfl
  | cons r0 rs ih =>
    intro hv
    have h0 := h r0 (List.mem_cons_self _ _)
    have hrest : ∀ r ∈ rs, regionSkipped allow r := fun r hr => h r (List.mem_cons_of_mem _ hr)
    rcases h0 with hLE | hLoaded
    · simp only [loadRegions]
      rw [if_pos hLE, ih hrest hv]
    · by_cases hLE2 : containsLinkedit r0.prettyName = true ∧ ¬allow = true
      · simp only [loadRegions]
        rw [if_pos hLE2, ih hrest hv]
      · simp only [loadRegions]
        rw [if_neg hLE2, if_pos hLoaded, ih hrest hv]

/-- `findImage` after `updateFirstImage` returns the image with the new
region list. -/
theorem findImage_updateFirstImage (l : List CacheImage) (nm : String)
    (regs : List MemoryRegion) (img : CacheImage)
    (h : findImage l nm = some img) :
    findImage (updateFirstImage l nm regs) nm = some { img with regions := regs } := by
  induction l with
  | nil => simp [findImage] at h
  | cons ci cis ih =>
    by_cases hc : ci.installName = nm
    · simp only [findImage] at h
      rw [if_pos hc] at h
      injection h with h2
      subst h2
      simp only [updateFirstImage]
      rw [if_pos hc]
      simp only [findImage]
      exact if_pos hc
    · simp only [findImage] at h
      rw [if_neg hc] at h
      simp only [updateFirstImage]
      rw [if_neg hc]
      simp only [findImage]
      rw [if_neg hc]
      exact ih h

/-- Writing back the region list an image already has changes nothing. -/
theorem updateFirstImage_self (l : List CacheImage) (nm : String) (img : CacheImage)
    (h : findImage l nm = some img) :
    updateFirstImage l nm img.regions = l := by
  induction l with
  | nil => rfl
  | cons ci cis ih =>
    by_cases hc : ci.installName = nm
    · simp only [findImage] at h
      rw [if_pos hc] at h
      injection h with h2
      subst h2
      simp only [updateFirstImage]
      rw [if_pos hc]
    · simp only [findImage] at h
      rw [if_neg hc] at h
      simp only [updateFirstImage]
      rw [if_neg hc, ih h]

/-- After the region loop has run once, re-running the whole operation
on the resulting state is inert: every region is now skipped, the
`regionsToLoad.empty()` branch returns `false`, and neither the state
nor the host view changes. -/
theorem load_image_after_success (allow hp : Bool) (st : LoadState) (hv : HostView)
    (nm : String) (img : CacheImage)
    (hfind : findImage st.images nm = some img)
    (hdrname : String) (hlook : st.headers.lookup img.headerLocation = some hdrname) :
    loadImageWithInstallName allow hp
      ⟨updateFirstImage st.images nm (loadRegions allow hv img.regions).1, st.headers,
        st.regionsMappedIntoMemory ++ (loadRegions allow hv img.regions).2.2.1, 2⟩
      (loadRegions allow hv img.regions).2.1 nm =
      (.ok false,
        ⟨updateFirstImage st.images nm (loadRegions allow hv img.regions).1, st.headers,
          st.regionsMappedIntoMemory ++ (loadRegions allow hv img.regions).2.2.1, 2⟩,
        (loadRegions allow hv img.regions).2.1) := by
  have hskip : ∀ r ∈ (loadRegions allow hv img.regions).1, regionSkipped allow r :=
    loadRegions_out_skipped allow img.regions hv
  have hfind2 : findImage
      (updateFirstImage st.images nm (loadRegions allow hv img.regions).1) nm =
      some { img with regions := (loadRegions allow hv img.regions).1 } :=
    findImage_updateFirstImage st.images nm (loadRegions allow hv img.regions).1 img hfind
  have hself : updateFirstImage
      (updateFirstImage st.images nm (loadRegions allow hv img.regions).1) nm
      (loadRegions allow hv img.regions).1 =
      updateFirstImage st.images nm (loadRegions allow hv img.regions).1 :=
    updateFirstImage_self _ nm { img with regions := (loadRegions allow hv img.regions).1 }
      hfind2
  have hlook2 : (st.headers.lookup
      ({ img with regions := (loadRegions allow hv img.regions).1 } : CacheImage).headerLocation) =
      some hdrname := hlook
  have hnoop : loadRegions allow (loadRegions allow hv img.regions).2.1
      (loadRegions allow hv img.regions).1 =
      ((loadRegions allow hv img.regions).1, (loadRegions allow hv img.regions).2.1, [], []) :=
    loadRegions_skipped_noop allow (loadRegions allow hv img.regions).1 hskip
      (loadRegions allow hv img.regions).2.1
  unfold loadImageWithInstallName
  simp only [hfind2, hlook2, hnoop, hself, List.append_nil, List.isEmpty_nil, if_true]

/-- Claim C2, amended: image loading materializes each region at most
once — a second `LoadImageWithInstallName` call after a successful one
skips every region, adds no host-view segments, leaves the state and
host view unchanged, and returns `false` (not `true`: the
`regionsToLoad.empty()` guard logs "No regions to load" and fails). -/
theorem load_image_second_call (allow hp : Bool) (st st' : LoadState) (hv hv' : HostView)
    (nm : String)
    (h : loadImageWithInstallName allow hp st hv nm = (.ok true, st', hv')) :
    loadImageWithInstallName allow hp st' hv' nm = (.ok false, st', hv') := by
  unfold loadImageWithInstallName at h
  cases hfind : findImage st.images nm with
  | none =>
    simp only [hfind] at h
    exact absurd h (by simp)
  | some img =>
    simp only [hfind] at h
    cases hlook : st.headers.lookup img.headerLocation with
    | none =>
      simp only [hlook] at h
      exact absurd h (by simp)
    | some hdrname =>
      simp only [hlook] at h
      split at h
      · exact absurd h (by simp)
      · split at h
        · exact absurd h (by simp)
        · simp only [Prod.mk.injEq, LoadOutcome.ok.injEq] at h
          obtain ⟨-, h2, h3⟩ := h
          subst h2
          subst h3
          exact load_image_after_success allow hp st hv nm img hfind hdrname hlook

/-- Witness for the amended C2: on the demo image the first call loads
the region and returns true; the theorem then gives that the second call
returns false with nothing changed. -/
theorem load_image_second_call_witness :
    loadImageWithInstallName true true
      (loadImageWithInstallName true true demoLoadState demoHostView "/usr/lib/libA.dylib").2.1
      (loadImageWithInstallName true true demoLoadState demoHostView "/usr/lib/libA.dylib").2.2
      "/usr/lib/libA.dylib" =
      (.ok false,
        (loadImageWithInstallName true true demoLoadState demoHostView "/usr/lib/libA.dylib").2.1,
        (loadImageWithInstallName true true demoLoadState demoHostView
          "/usr/lib/libA.dylib").2.2) :=
  load_image_second_call true true demoLoadState _ demoHostView _ "/usr/lib/libA.dylib"
    (by rfl)

/-- Claim C2, counterexample: after a successful load of the demo image,
the second `LoadImageWithInstallName` call returns `false` (the
`regionsToLoad.empty()` early return), not `true` as claimed. -/
theorem load_image_second_call_cx :
    (loadImageWithInstallName true true demoLoadState demoHostView "/usr/lib/libA.dylib").1 =
        LoadOutcome.ok true ∧
      (let r1 := loadImageWithInstallName true true demoLoadState demoHostView
        "/usr/lib/libA.dylib"
       (loadImageWithInstallName true true r1.2.1 r1.2.2 "/usr/lib/libA.dylib").1 =
        LoadOutcome.ok false) := by
  exact ⟨by decide, by decide⟩

/-- Half-open `Nat` intervals with a separating bound are disjoint. -/
theorem ico_disjoint_of_bounds (a b c d : Nat) (h : b ≤ c ∨ d ≤ a) :
    Set.Ico a b ∩ Set.Ico c d = ∅ := by
  ext x
  simp only [Set.mem_inter_iff, Set.mem_Ico, Set.mem_empty_iff_false, iff_false, not_and]
  intro h1 h2
  omega

/-- Each fragment `splitRegionForSegment` keeps is within 64-bit range, a
sub-interval of the original region, and separated from the segment. -/
theorem splitRegionForSegment_spec (segStart segSize : Nat) (r : MemoryRegion)
    (hseg : segStart + segSize < M64) (hr : r.start + r.size < M64) :
    ∀ r2 ∈ splitRegionForSegment segStart (uend segStart segSize) r,
      r2.start + r2.size < M64 ∧ r.start ≤ r2.start ∧
        r2.start + r2.size ≤ r.start + r.size ∧
        (r2.start + r2.size ≤ segStart ∨ segStart + segSize ≤ r2.start) := by
  intro r2 h2
  unfold splitRegionForSegment at h2
  rw [show uend r.start r.size = r.start + r.size from Nat.mod_eq_of_lt hr,
    show uend segStart segSize = segStart + segSize from Nat.mod_eq_of_lt hseg] at h2
  dsimp only at h2
  split at h2
  · rename_i hov
    rcases List.mem_append.mp h2 with h1 | h1
    · split at h1
      · rename_i hpre
        simp only [List.mem_singleton] at h1
        subst h1
        dsimp only
        omega
      · simp at h1
    · split at h1
      · rename_i hpost
        simp only [List.mem_singleton] at h1
        subst h1
        dsimp only
        omega
      · simp at h1
  · simp only [List.mem_singleton] at h2
    subst h2
    rename_i hov
    omega

/-- One segment pass: every output region is in range, inside some input
region, and separated from that segment. -/
theorem applySegmentSplit_spec (regions : List MemoryRegion) (seg : SegmentCommand64)
    (hseg : seg.vmaddr + seg.vmsize < M64)
    (hr : ∀ r ∈ regions, r.start + r.size < M64) :
    ∀ r2 ∈ applySegmentSplit regions seg,
      r2.start + r2.size < M64 ∧
        (∃ r0 ∈ regions, r0.start ≤ r2.start ∧ r2.start + r2.size ≤ r0.start + r0.size) ∧
        (r2.start + r2.size ≤ seg.vmaddr ∨ seg.vmaddr + seg.vmsize ≤ r2.start) := by
  intro r2 h2
  unfold applySegmentSplit at h2
  rcases List.mem_flatMap.mp h2 with ⟨r0, hr0, hmem⟩
  obtain ⟨a, b, c, d⟩ := splitRegionForSegment_spec seg.vmaddr seg.vmsize r0 hseg (hr r0 hr0)
    r2 hmem
  exact ⟨a, ⟨r0, hr0, b, c⟩, d⟩

/-- Folding the splitting over a segment list leaves every region in
range, inside some original region, and separated from every segment of
the list. -/
theorem splitRegionsOverSegments_spec (segs : List SegmentCommand64) :
    ∀ regions : List MemoryRegion,
      (∀ s ∈ segs, s.vmaddr + s.vmsize < M64) →
      (∀ r ∈ regions, r.start + r.size < M64) →
      ∀ r ∈ splitRegionsOverSegments segs regions,
        r.start + r.size < M64 ∧
          (∃ r0 ∈ regions, r0.start ≤ r.start ∧ r.start + r.size ≤ r0.start + r0.size) ∧
          ∀ s ∈ segs, r.start + r.size ≤ s.vmaddr ∨ s.vmaddr + s.vmsize ≤ r.start := by
  induction segs with
  | nil =>
    intro regions hs hr r hmem
    simp only [splitRegionsOverSegments, List.foldl_nil] at hmem
    refine ⟨hr r hmem, ⟨r, hmem, le_refl _, le_refl _⟩, ?_⟩
    intro s hsm
    simp at hsm
  | cons seg segs ih =>
    intro regions hs hr r hmem
    simp only [splitRegionsOverSegments, List.foldl_cons] at hmem
    have hseg0 : seg.vmaddr + seg.vmsize < M64 := hs seg (List.mem_cons_self _ _)
    have hsrest : ∀ s ∈ segs, s.vmaddr + s.vmsize < M64 :=
      fun s h => hs s (List.mem_cons_of_mem _ h)
    have hr1 : ∀ r1 ∈ applySegmentSplit regions seg, r1.start + r1.size < M64 :=
      fun r1 h1 => (applySegmentSplit_spec regions seg hseg0 hr r1 h1).1
    have hmem2 : r ∈ splitRegionsOverSegments segs (applySegmentSplit regions seg) := hmem
    obtain ⟨ha, ⟨r1, hr1m, hsub1, hsub2⟩, hall⟩ :=
      ih (applySegmentSplit regions seg) hsrest hr1 r hmem2
    obtain ⟨b1, ⟨r0, hr0m, hs1, hs2⟩, bdis⟩ :=
      applySegmentSplit_spec regions seg hseg0 hr r1 hr1m
    refine ⟨ha, ⟨r0, hr0m, by omega, by omega⟩, ?_⟩
    intro s hsmem
    rcases List.mem_cons.mp hsmem with rfl | hsm
    · rcases bdis with hb | hb
      · left; omega
      · right; omega
    · exact hall s hsm

/-- Claim C7: after the splitting pass of `PerformInitialLoad`, no
dyld-data or non-image region overlaps any segment of any parsed Mach-O
header (all address ranges assumed within the 64-bit space, so the end
computations do not wrap). -/
theorem regions_disjoint_from_segments (headers : List (Nat × SCHeader))
    (regions : List MemoryRegion)
    (hs : ∀ s ∈ allSegments headers, s.vmaddr + s.vmsize < M64)
    (hr : ∀ r ∈ regions, r.start + r.size < M64) :
    ∀ r ∈ splitPass headers regions, ∀ s ∈ allSegments headers,
      regionSegmentDisjoint r s := by
  intro r hmem s hsmem
  unfold splitPass at hmem
  split at hmem
  · rename_i hemp
    cases regions with
    | nil => simp at hmem
    | cons a l => simp [List.isEmpty] at hemp
  · obtain ⟨-, -, hdis⟩ :=
      splitRegionsOverSegments_spec (allSegments headers) regions hs hr r hmem
    exact ico_disjoint_of_bounds _ _ _ _ (hdis s hsmem)

/-- Witness for C7: splitting the `[50, 300)` region around the
`[100, 200)` segment leaves the leading fragment disjoint from it. -/
theorem regions_disjoint_from_segments_witness :
    regionSegmentDisjoint ⟨"data", 50, 50, false, 0, false, 1⟩ c7seg :=
  regions_disjoint_from_segments c7headers [c7region] (by decide) (by decide)
    ⟨"data", 50, 50, false, 0, false, 1⟩ (by decide) c7seg (by decide)

end DSC
